import Mathlib

/-!
# KubeEdge cloud router: REST listener and cloudcore metrics

A shallow embedding of

* `cloud/pkg/router/listener/http.go` (`InitHandler`, `Serve`, `matchedPath`,
  `httpHandler`, `serveReverseProxy`), and
* `cloud/pkg/metrics/metrics.go` (the two duration tables and their recorders),

followed by theorems about the embedded functions.

Conventions.  A Go map is an association list read with `List.lookup`; where the
program ranges over a map, the list order is the order of that enumeration, so a
statement quantified over all lists covers every enumeration order.  Functions of
other packages that the listener calls (`utils.IsMatch`, `utils.RuleContains`,
`url.Parse`, `textproto.CanonicalMIMEHeaderKey`) are arguments of the embedded
functions.  The two functions of package `utils` are not among the sources; they are
also given as `wildcardIsMatch` and `literalRuleContains`, written from section 4.2 of
the design document.
-/

namespace KubeEdge

namespace Listener

/-! ## Data model -/

/-- The constant `MaxMessageBytes = 12 * (1 << 20)`. -/
def MaxMessageBytes : Nat := 12 * (1 <<< 20)

/-- Worker of `stringsSplit`: `acc` holds the current piece, reversed. -/
def splitAux : List Char → List Char → List String
  | [], acc => [String.mk acc.reverse]
  | c :: cs, acc =>
    if c = '/' then String.mk acc.reverse :: splitAux cs [] else splitAux cs (c :: acc)

/-- Go `strings.Split(s, "/")`: the pieces of `s` between slashes, one more than
the number of slashes. -/
def stringsSplit (s : String) : List String := splitAux s.data []

/-- Go `[]byte(s)`. -/
def bytesOf (s : String) : List UInt8 := s.toUTF8.data.toList

/-- Go `http.Header`, a map from header name to the list of its values. -/
abbrev Header := List (String × List String)

/-- The values stored under `key` (`h[key]`, empty when absent). -/
def Header.values (h : Header) (key : String) : List String := (h.lookup key).getD []

/-- `Header.Get` of net/http: first value under the canonical form of `key`, or `""`. -/
def Header.Get (canon : String → String) (h : Header) (key : String) : String :=
  (Header.values h (canon key)).headD ""

/-- `Header.Set` of net/http: the canonical key now holds exactly `[value]`. -/
def Header.Set (canon : String → String) (h : Header) (key value : String) : Header :=
  (canon key, [value]) :: h.filter (fun e => e.1 ≠ canon key)

/-- `Header.Add` of net/http: `value` is appended to the values of the canonical key. -/
def Header.Add (canon : String → String) (h : Header) (key value : String) : Header :=
  (canon key, Header.values h (canon key) ++ [value]) :: h.filter (fun e => e.1 ≠ canon key)

/-- The two fields of `url.URL` that the listener touches. -/
structure URL where
  Scheme : String
  Host : String
deriving DecidableEq, Repr

/-- A body stream (`io.ReadCloser`): it yields `data` and then ends, either with
`io.EOF` or, when `readErr` is set, with a read error reported by the read that
follows the last byte. -/
structure ReadCloser where
  data : List UInt8
  readErr : Bool
deriving DecidableEq, Repr

/-- The fields of `http.Request` that the listener reads or writes. -/
structure Request where
  RequestURI : String
  Host : String
  URL : URL
  Header : Header
  Body : ReadCloser
deriving DecidableEq, Repr

/-- The fields of `http.Response` that the listener reads. -/
structure Response where
  StatusCode : Int
  Header : Header
  Body : ReadCloser
deriving DecidableEq, Repr

/-- The parameter bag `params` built by `httpHandler`
(keys `messageID`, `request`, `timeout`, `data`). -/
structure Params where
  messageID : String
  request : Request
  timeout : Int
  data : List UInt8
deriving DecidableEq, Repr

/-- The dynamic value a `Handle` returns besides its error: either a non-nil
`*http.Response`, or a value of some other type, for which the type assertion
`resp.(*http.Response)` fails. -/
inductive HandleValue where
  | httpResponse (response : Response)
  | other
deriving DecidableEq, Repr

/-- The callback type `Handle`: `func(interface{}) (interface{}, error)`. -/
abbrev Handle := Params → Except String HandleValue

/-- A `*v1.Node` as far as the listener looks: its annotations, `none` for a nil map. -/
structure Node where
  Annotations : Option (List (String × String))
deriving DecidableEq, Repr

/-- Indexing a Go `map[string]string`: the zero value `""` for an absent key. -/
def mapIndex (m : List (String × String)) (key : String) : String := (m.lookup key).getD ""

/-- The struct `RestHandler`.  `handlers` is the `sync.Map` of registered patterns, listed
in the order in which `Range` enumerates it; `nodeLister` is `NodeLister.Get`, `none`
standing for a non-nil error. -/
structure RestHandler where
  restTimeout : Int
  handlers : List (String × Handle)
  port : Int
  bindAddress : String
  nodeLister : String → Option Node

/-! ## `matchedPath` -/

/-- Body of the closure that `matchedPath` passes to `handlers.Range`: the new value of
`candidateRes` after the entry with key `pathReg` has been visited. -/
def matchedPathVisit (IsMatch RuleContains : String → String → Bool) (uri : String)
    (candidateRes pathReg : String) : String :=
  if IsMatch pathReg uri then
    if candidateRes ≠ "" && RuleContains pathReg candidateRes then candidateRes else pathReg
  else candidateRes

/-- The method `RestHandler.matchedPath`. -/
def matchedPath (IsMatch RuleContains : String → String → Bool) (rh : RestHandler)
    (uri : String) : String × Bool :=
  let candidateRes :=
    rh.handlers.foldl (fun c e => matchedPathVisit IsMatch RuleContains uri c e.1) ""
  if candidateRes = "" then ("", false) else (candidateRes, true)

/-- The registered patterns, in enumeration order. -/
def RestHandler.patterns (rh : RestHandler) : List String := rh.handlers.map Prod.fst

/-- The value of `candidateRes` after the closure of `matchedPath` has visited the patterns
of `l` in order, starting from the value `c`. -/
def candidateAfter (IsMatch RuleContains : String → String → Bool) (uri : String)
    (c : String) (l : List String) : String :=
  l.foldl (matchedPathVisit IsMatch RuleContains uri) c

/-! ## `httpHandler` and `serveReverseProxy` -/

/-- The state of the `http.ResponseWriter` that the server hands to `httpHandler`: the header
map reached through `w.Header()`, the status once the header has been written, and the body
bytes that `Write` has accepted. -/
structure ResponseWriter where
  header : Header
  statusCode : Option Int
  body : List UInt8
deriving DecidableEq, Repr

/-- The function `bodyAllowedForStatus` of net/http: no body goes with an informational
status, with 204 or with 304. -/
def bodyAllowedForStatus (status : Int) : Bool :=
  if 100 ≤ status ∧ status ≤ 199 then false
  else if status = 204 then false
  else if status = 304 then false
  else true

/-- A call of `w.WriteHeader(code)` on the server's writer.  A call after the header has been
written is ignored; otherwise a code outside 100..999 makes the call panic (`none`), and a
code within that range becomes the status (an informational code is recorded like any
other). -/
def ResponseWriter.WriteHeader (w : ResponseWriter) (code : Int) : Option ResponseWriter :=
  match w.statusCode with
  | some _ => some w
  | none => if code < 100 ∨ code > 999 then none else some { w with statusCode := some code }

/-- A call of `w.Write(b)` on the server's writer.  A write before any `WriteHeader` writes
the header with status 200; an empty `b` is accepted and adds nothing; a non-empty `b` is
refused (`ErrBodyNotAllowed`, nothing is added) when the status admits no body, and is
appended to the body otherwise. -/
def ResponseWriter.Write (w : ResponseWriter) (b : List UInt8) : ResponseWriter :=
  let status := w.statusCode.getD 200
  if b = [] then { w with statusCode := some status }
  else if bodyAllowedForStatus status then
    { w with statusCode := some status, body := w.body ++ b }
  else { w with statusCode := some status }

/-- The constant `http.StatusNotFound`. -/
def StatusNotFound : Int := 404

/-- The constant `http.StatusBadRequest`. -/
def StatusBadRequest : Int := 400

/-- Go `ioutil.ReadAll(http.MaxBytesReader(w, body, n))`: an error when the stream holds more
than `n` bytes or ends with a read error, otherwise all of its bytes. -/
def readAllMaxBytes (body : ReadCloser) (n : Nat) : Except String (List UInt8) :=
  if body.data.length > n then .error "http: request body too large"
  else if body.readErr then .error "read error"
  else .ok body.data

/-- Go `ioutil.ReadAll(io.LimitReader(body, n))`: the first `n` bytes of the stream; the read
error of a stream shorter than `n` bytes is returned, the reader stops at `n` bytes otherwise. -/
def readAllLimit (body : ReadCloser) (n : Nat) : Except String (List UInt8) :=
  if body.data.length < n ∧ body.readErr = true then .error "read error"
  else .ok (body.data.take n)

/-- The request that `serveReverseProxy` hands to `proxy.ServeHTTP`, with the parsed target;
`none` when `url.Parse` fails (the error is dropped and the nil URL is dereferenced).
`proxy.ServeHTTP` then performs the round trip and copies the upstream answer to the writer
before it returns (the note in the source that calls it non-blocking notwithstanding); that
round trip is not part of this function. -/
def serveReverseProxy (urlParse : String → Option URL) (canon : String → String)
    (target : String) (req : Request) : Option (URL × Request) :=
  match urlParse target with
  | none => none
  | some url =>
    let req1 := { req with URL := { req.URL with Host := url.Host } }
    let req2 := { req1 with URL := { req1.URL with Scheme := url.Scheme } }
    let req3 := { req2 with
      Header := Header.Set canon req2.Header "X-Forwarded-Host" (Header.Get canon req2.Header "Host") }
    let req4 := { req3 with Host := url.Host }
    some (url, req4)

/-- The loop of `httpHandler` that copies `response.Header` into `w.Header()`:
for every key, in the enumeration order of the map, every value is added in order. -/
def copyHeader (canon : String → String) (dst src : Header) : Header :=
  src.foldl (fun h kv => kv.2.foldl (fun h' value => Header.Add canon h' kv.1 value) h) dst

/-- The observable effects of one `httpHandler` call: the state of the response writer after
the calls made on it by `httpHandler` itself, the registered handlers it invoked (pattern and
parameter bag), its calls of `serveReverseProxy` (target and request), and whether the call
ended in a panic of the writer, in which case the server drops the connection and no response
reaches the caller. -/
structure Outcome where
  w : ResponseWriter
  invoked : List (String × Params)
  proxied : List (String × Request)
  panicked : Bool
deriving DecidableEq, Repr

/-- An early return of `httpHandler` that writes a status code and a plain-text body. -/
def replyText (w : ResponseWriter) (code : Int) (text : String) : Outcome :=
  match w.WriteHeader code with
  | none => { w := w, invoked := [], proxied := [], panicked := true }
  | some w1 => { w := w1.Write (bytesOf text), invoked := [], proxied := [], panicked := false }

/-- The tail of `httpHandler`, from the return of `handle(params)` on: the writer afterwards,
and whether the tail panicked.  Nothing is written when the handler fails, when its value is
not a `*http.Response`, or when the response body cannot be read; otherwise the headers are
copied, the status code is written (a panic of `WriteHeader` ends the call there) and then
the body, cut at `MaxMessageBytes`, is passed to `Write`. -/
def writeHandleResult (canon : String → String) (w : ResponseWriter)
    (result : Except String HandleValue) : ResponseWriter × Bool :=
  match result with
  | .error _ => (w, false)
  | .ok .other => (w, false)
  | .ok (.httpResponse response) =>
    match readAllLimit response.Body MaxMessageBytes with
    | .error _ => (w, false)
    | .ok body =>
      let w1 := { w with header := copyHeader canon w.header response.Header }
      match w1.WriteHeader response.StatusCode with
      | none => (w1, true)
      | some w2 => (w2.Write body, false)

/-- The method `RestHandler.httpHandler`.  `routerURL` is the package variable of that name,
`RouterURLAnnotationKey` the constant of package `modules`, `msgID` the string of the fresh
UUID, `w` the response writer as the server passes it in. -/
def httpHandler (IsMatch RuleContains : String → String → Bool) (canon : String → String)
    (RouterURLAnnotationKey routerURL : String) (rh : RestHandler) (msgID : String)
    (w : ResponseWriter) (r : Request) : Outcome :=
  let uriSections := stringsSplit r.RequestURI
  if uriSections.length < 2 then replyText w StatusNotFound "Request error"
  else
    match matchedPath IsMatch RuleContains rh r.RequestURI with
    | (_, false) => replyText w StatusNotFound "Request error"
    | (matchPath, true) =>
      match rh.nodeLister (uriSections.getD 1 "") with
      | none => replyText w StatusNotFound "No rule match"
      | some node =>
        match node.Annotations with
        | none => replyText w StatusNotFound "No rule match"
        | some annotations =>
          if mapIndex annotations RouterURLAnnotationKey = "" then
            replyText w StatusNotFound "No rule match"
          else if mapIndex annotations RouterURLAnnotationKey ≠ routerURL then
            { w := w, invoked := [],
              proxied := [(mapIndex annotations RouterURLAnnotationKey, r)], panicked := false }
          else
            match rh.handlers.lookup matchPath with
            | none => { w := w, invoked := [], proxied := [], panicked := false }
            | some handle =>
              match readAllMaxBytes r.Body MaxMessageBytes with
              | .error _ => replyText w StatusBadRequest "Request error,body is null"
              | .ok b =>
                let params : Params :=
                  { messageID := msgID, request := r, timeout := rh.restTimeout, data := b }
                { w := (writeHandleResult canon w (handle params)).1,
                  invoked := [(matchPath, params)], proxied := [],
                  panicked := (writeHandleResult canon w (handle params)).2 }

/-! ## `InitHandler` and `Serve` -/

/-- Conversion of an integer to Go `int64` (two's complement wrap-around). -/
def toInt64 (x : Int) : Int := (x + 2 ^ 63) % 2 ^ 64 - 2 ^ 63

/-- The fields of `routerConfig.Config` read by `InitHandler`. -/
structure RouterConfig where
  Address : String
  Port : Int
  RestTimeout : Int
deriving DecidableEq, Repr

/-- The function `InitHandler`: the new value of `RestHandlerInstance` and of `routerURL`.
`lister` is the node lister obtained from the informer manager and `localIP` the result of
`util.GetLocalIP(util.GetHostname())`, whose error is dropped. -/
def InitHandler (cfg : RouterConfig) (localIP : String) (lister : String → Option Node)
    (RestHandlerInstance : RestHandler) : RestHandler × String :=
  let timeout := if cfg.RestTimeout ≤ 0 then 60 else cfg.RestTimeout
  let port := if toInt64 cfg.Port ≤ 0 then 9443 else toInt64 cfg.Port
  let rh : RestHandler :=
    { RestHandlerInstance with
      restTimeout := toInt64 (toInt64 timeout * 1000000000)
      bindAddress := cfg.Address
      port := port
      nodeLister := lister }
  let routerAddr := if cfg.Address = "0.0.0.0" then localIP else cfg.Address
  (rh, "http://" ++ routerAddr ++ ":" ++ toString cfg.Port)

/-- The `Addr` of the `http.Server` that `RestHandler.Serve` starts. -/
def Serve (rh : RestHandler) : String := rh.bindAddress ++ ":" ++ toString rh.port

/-! ## The matcher of package `utils` -/

/-- Modelled from the spec: `utils.IsMatch` is not part of the listener file.  Segment-wise
wildcard matching on split paths: the pattern segment `*` matches exactly one path segment,
a trailing `**` matches the remainder, any other segment matches itself. -/
def segmentsMatch : List String → List String → Bool
  | [], [] => true
  | [], _ :: _ => false
  | p :: ps, us =>
    if p = "**" then ps.isEmpty
    else
      match us with
      | [] => false
      | u :: us' => (p = "*" || p = u) && segmentsMatch ps us'

/-- Modelled from the spec: `utils.IsMatch` is not part of the listener file; wildcard-aware
matching of a pattern against a request path. -/
def wildcardIsMatch (reg uri : String) : Bool :=
  segmentsMatch (stringsSplit reg) (stringsSplit uri)

/-- Modelled from the spec: the literal prefix of a split pattern, that is, its segments up
to the first wildcard segment. -/
def leadingLiterals : List String → List String
  | [] => []
  | p :: ps => if p = "*" ∨ p = "**" then [] else p :: leadingLiterals ps

/-- Whether the first list is an initial part of the second. -/
def initialPartOf : List String → List String → Bool
  | [], _ => true
  | _ :: _, [] => false
  | x :: xs, y :: ys => decide (x = y) && initialPartOf xs ys

/-- Modelled from the spec: `utils.RuleContains` is not part of the listener file.  Section 4.2
prefers a pattern over another when the other's literal prefix is contained within its own;
`literalRuleContains reg rule` holds when the literal prefix of `reg` is an initial part of
the literal prefix of `rule`, so that `rule` is at least as specific as `reg`. -/
def literalRuleContains (reg rule : String) : Bool :=
  initialPartOf (leadingLiterals (stringsSplit reg)) (leadingLiterals (stringsSplit rule))

/-! ## Sample values used for concrete evaluations -/

/-- A handler that answers 204 with the body `ok`. -/
def noContentHandle : Handle := fun _ =>
  .ok (.httpResponse
    { StatusCode := 204, Header := [], Body := { data := [111, 107], readErr := false } })

/-- A handler that answers with the status code 0 and the body `ok`. -/
def zeroStatusHandle : Handle := fun _ =>
  .ok (.httpResponse
    { StatusCode := 0, Header := [], Body := { data := [111, 107], readErr := false } })

/-- A handler that answers 200 with one header and echoes the request body. -/
def echoHandle : Handle := fun params =>
  .ok (.httpResponse
    { StatusCode := 200, Header := [("Content-Type", ["text/plain"])],
      Body := { data := params.data, readErr := false } })

/-- A node lister that knows `node1` (served by `http://10.0.0.5:9443`), `node2` (served by
`http://10.0.0.9:9443`) and `node3` (no annotations), the annotation key being `routerURL`. -/
def sampleLister : String → Option Node := fun name =>
  if name = "node1" then some { Annotations := some [("routerURL", "http://10.0.0.5:9443")] }
  else if name = "node2" then some { Annotations := some [("routerURL", "http://10.0.0.9:9443")] }
  else if name = "node3" then some { Annotations := none }
  else none

/-- A rest handler on port 9443 with the given patterns registered, in that enumeration
order, each with `echoHandle`. -/
def sampleRestHandler (patterns : List String) : RestHandler :=
  { restTimeout := 60000000000, handlers := patterns.map (fun p => (p, echoHandle)),
    port := 9443, bindAddress := "10.0.0.5", nodeLister := sampleLister }

/-- A response writer on which nothing has been written. -/
def freshWriter : ResponseWriter := { header := [], statusCode := none, body := [] }

/-- A request for `uri` with host `edge.example.com`, no header entries and the body `body`. -/
def sampleRequest (uri : String) (body : ReadCloser) : Request :=
  { RequestURI := uri, Host := "edge.example.com", URL := { Scheme := "", Host := "" },
    Header := [], Body := body }

/-- A stand-in for `url.Parse` on the targets used below: scheme and host of
`http://10.0.0.9:9443`, failure on anything else. -/
def sampleURLParse : String → Option URL := fun target =>
  if target = "http://10.0.0.9:9443" then some { Scheme := "http", Host := "10.0.0.9:9443" }
  else none

/-- The sample instance: router URL `http://10.0.0.5:9443`, annotation key `routerURL`,
the pattern `/*/twin/update` registered with `echoHandle`, message ID `msg-1`, header keys
taken as they are, and a fresh response writer. -/
def sampleServe (r : Request) : Outcome :=
  httpHandler wildcardIsMatch literalRuleContains (fun key => key) "routerURL"
    "http://10.0.0.5:9443" (sampleRestHandler ["/*/twin/update"]) "msg-1" freshWriter r

/-- The sample instance with `handle` registered under `/*/twin/update` in place of
`echoHandle`. -/
def sampleServeWith (handle : Handle) (r : Request) : Outcome :=
  httpHandler wildcardIsMatch literalRuleContains (fun key => key) "routerURL"
    "http://10.0.0.5:9443"
    { sampleRestHandler [] with handlers := [("/*/twin/update", handle)] } "msg-1" freshWriter r

end Listener

namespace Metrics

/-! ## `cloud/pkg/metrics/metrics.go` -/

/-- The routing fields of a beehive `model.Message`. -/
structure MessageRoute where
  Source : String
  Group : String
  Operation : String
  Resource : String
deriving DecidableEq, Repr

/-- A beehive `model.Message` as far as the recorders look: its ID (`msg.GetID()`)
and its route. -/
structure Message where
  ID : String
  Router : MessageRoute
deriving DecidableEq, Repr

/-- One `Observe` call on a histogram vector: the four label values and the observed
duration `time.Since(start)`, in nanoseconds. -/
structure Observation where
  labels : MessageRoute
  elapsed : Int
deriving DecidableEq, Repr

/-- A table `map[string]time.Time`, times in nanoseconds. -/
abbrev TimeTable := List (String × Int)

/-- Go `delete(m, key)`. -/
def TimeTable.delete (m : TimeTable) (key : String) : TimeTable := m.filter (fun e => e.1 ≠ key)

/-- The package state touched by the duration recorders: the two tables and the observations
made so far on the two histogram vectors. -/
structure State where
  cloudcoreHandleReceiveMessageDuration : TimeTable
  cloudcoreSendMessageDuration : TimeTable
  CloudcoreMessageHandleDurationSeconds : List Observation
  CloudcoreMessageSendDurationSeconds : List Observation
deriving DecidableEq, Repr

/-- The body of the goroutine of `RecordCloudcoreMessageHandleDuration`, run at time `now`. -/
def RecordCloudcoreMessageHandleDuration (now : Int) (msg : Message) (s : State) : State :=
  let uid := msg.ID
  match s.cloudcoreHandleReceiveMessageDuration.lookup uid with
  | none => s
  | some start =>
    { s with
      CloudcoreMessageHandleDurationSeconds :=
        s.CloudcoreMessageHandleDurationSeconds ++ [{ labels := msg.Router, elapsed := now - start }]
      cloudcoreHandleReceiveMessageDuration :=
        s.cloudcoreHandleReceiveMessageDuration.delete uid }

/-- The body of the goroutine of `RecordCloudcoreSendMessageDuration`, run at time `now`. -/
def RecordCloudcoreSendMessageDuration (now : Int) (msg : Message) (s : State) : State :=
  let uid := msg.ID
  match s.cloudcoreSendMessageDuration.lookup uid with
  | none => s
  | some start =>
    { s with
      CloudcoreMessageSendDurationSeconds :=
        s.CloudcoreMessageSendDurationSeconds ++ [{ labels := msg.Router, elapsed := now - start }]
      cloudcoreSendMessageDuration := s.cloudcoreSendMessageDuration.delete uid }

/-- A state with two pending receive entries and one pending send entry. -/
def sampleState : State :=
  { cloudcoreHandleReceiveMessageDuration := [("m1", 100), ("m2", 250)]
    cloudcoreSendMessageDuration := [("m3", 300)]
    CloudcoreMessageHandleDurationSeconds := []
    CloudcoreMessageSendDurationSeconds := [] }

/-- A message with the given ID on a fixed route. -/
def sampleMessage (id : String) : Message :=
  { ID := id,
    Router := { Source := "router_rest", Group := "user", Operation := "update",
                Resource := "node1/twin" } }

end Metrics

/-! # Theorems -/

namespace Listener

section MatchedPath

variable (IsMatch RuleContains : String → String → Bool) (uri : String)

theorem matchedPath_eq_candidateAfter (rh : RestHandler) :
    matchedPath IsMatch RuleContains rh uri =
      if candidateAfter IsMatch RuleContains uri "" rh.patterns = "" then ("", false)
      else (candidateAfter IsMatch RuleContains uri "" rh.patterns, true) := by
  simp only [matchedPath, candidateAfter, RestHandler.patterns, List.foldl_map]

theorem candidateAfter_cons (c x : String) (l : List String) :
    candidateAfter IsMatch RuleContains uri c (x :: l) =
      candidateAfter IsMatch RuleContains uri (matchedPathVisit IsMatch RuleContains uri c x) l :=
  rfl

theorem matchedPathVisit_of_not_match (c x : String) (h : IsMatch x uri = false) :
    matchedPathVisit IsMatch RuleContains uri c x = c := by
  simp [matchedPathVisit, h]

theorem matchedPathVisit_of_empty (x : String) (h : IsMatch x uri = true) :
    matchedPathVisit IsMatch RuleContains uri "" x = x := by
  simp [matchedPathVisit, h]

theorem matchedPathVisit_of_contains (c x : String) (h : IsMatch x uri = true)
    (hc : c ≠ "") (hr : RuleContains x c = true) :
    matchedPathVisit IsMatch RuleContains uri c x = c := by
  simp [matchedPathVisit, h, hc, hr]

theorem matchedPathVisit_of_not_contains (c x : String) (h : IsMatch x uri = true)
    (hr : RuleContains x c = false) :
    matchedPathVisit IsMatch RuleContains uri c x = x := by
  simp [matchedPathVisit, h, hr]

/-- Visiting an entry either keeps the candidate or replaces it by a matching pattern. -/
theorem matchedPathVisit_cases (c x : String) :
    matchedPathVisit IsMatch RuleContains uri c x = c ∨
      (matchedPathVisit IsMatch RuleContains uri c x = x ∧ IsMatch x uri = true) := by
  unfold matchedPathVisit
  by_cases h : IsMatch x uri = true
  · by_cases h2 : (decide (c ≠ "") && RuleContains x c) = true
    · left; rw [if_pos h, if_pos h2]
    · right; rw [if_pos h, if_neg h2]; exact ⟨rfl, h⟩
  · left; rw [if_neg h]

/-- Patterns that do not match the URI play no part in the enumeration. -/
theorem candidateAfter_filter (l : List String) (c : String) :
    candidateAfter IsMatch RuleContains uri c l =
      candidateAfter IsMatch RuleContains uri c (l.filter (fun p => IsMatch p uri)) := by
  induction l generalizing c with
  | nil => rfl
  | cons x xs ih =>
    by_cases h : IsMatch x uri = true
    · have hf : (x :: xs).filter (fun p => IsMatch p uri) =
          x :: xs.filter (fun p => IsMatch p uri) := by simp [List.filter_cons, h]
      rw [hf, candidateAfter_cons, candidateAfter_cons, ih]
    · have h' : IsMatch x uri = false := by simpa using h
      have hf : (x :: xs).filter (fun p => IsMatch p uri) =
          xs.filter (fun p => IsMatch p uri) := by simp [List.filter_cons, h']
      rw [hf, candidateAfter_cons,
        matchedPathVisit_of_not_match IsMatch RuleContains uri c x h', ih]

/-- The final candidate is the initial one or a pattern of the list that matches the URI. -/
theorem candidateAfter_mem (l : List String) (c : String) :
    candidateAfter IsMatch RuleContains uri c l = c ∨
      (candidateAfter IsMatch RuleContains uri c l ∈ l ∧
        IsMatch (candidateAfter IsMatch RuleContains uri c l) uri = true) := by
  induction l generalizing c with
  | nil => left; rfl
  | cons x xs ih =>
    rw [candidateAfter_cons]
    rcases ih (matchedPathVisit IsMatch RuleContains uri c x) with h | ⟨h1, h2⟩
    · rcases matchedPathVisit_cases IsMatch RuleContains uri c x with hv | ⟨hv, hm⟩
      · left; rw [h, hv]
      · right; rw [h, hv]; exact ⟨List.mem_cons_self _ _, hm⟩
    · right; exact ⟨List.mem_cons_of_mem _ h1, h2⟩

/-- When no pattern of the list matches, the candidate is left as it was. -/
theorem candidateAfter_of_no_match (l : List String) (c : String)
    (h : ∀ p ∈ l, IsMatch p uri = false) :
    candidateAfter IsMatch RuleContains uri c l = c := by
  induction l generalizing c with
  | nil => rfl
  | cons x xs ih =>
    rw [candidateAfter_cons,
      matchedPathVisit_of_not_match IsMatch RuleContains uri c x (h x (List.mem_cons_self _ _))]
    exact ih c (fun p hp => h p (List.mem_cons_of_mem _ hp))

/-- Once a non-empty candidate is held, and no matching pattern is empty, the candidate
stays non-empty. -/
theorem candidateAfter_ne_empty_of_ne (l : List String) (c : String)
    (hne : ∀ p ∈ l, IsMatch p uri = true → p ≠ "") (hc : c ≠ "") :
    candidateAfter IsMatch RuleContains uri c l ≠ "" := by
  induction l generalizing c with
  | nil => exact hc
  | cons x xs ih =>
    rw [candidateAfter_cons]
    apply ih _ (fun p hp => hne p (List.mem_cons_of_mem _ hp))
    rcases matchedPathVisit_cases IsMatch RuleContains uri c x with hv | ⟨hv, hm⟩
    · rw [hv]; exact hc
    · rw [hv]; exact hne x (List.mem_cons_self _ _) hm

/-- When some pattern matches, and no matching pattern is empty, a candidate is held
at the end. -/
theorem candidateAfter_ne_empty_of_match (l : List String) (c : String)
    (hne : ∀ p ∈ l, IsMatch p uri = true → p ≠ "")
    (hex : ∃ p ∈ l, IsMatch p uri = true) :
    candidateAfter IsMatch RuleContains uri c l ≠ "" := by
  induction l generalizing c with
  | nil => obtain ⟨p, hp, _⟩ := hex; cases hp
  | cons x xs ih =>
    rw [candidateAfter_cons]
    have hne' : ∀ p ∈ xs, IsMatch p uri = true → p ≠ "" :=
      fun p hp => hne p (List.mem_cons_of_mem _ hp)
    by_cases hx : IsMatch x uri = true
    · apply candidateAfter_ne_empty_of_ne IsMatch RuleContains uri xs _ hne'
      rcases matchedPathVisit_cases IsMatch RuleContains uri c x with hv | ⟨hv, _⟩
      · rw [hv]
        intro hc
        rw [hc, matchedPathVisit_of_empty IsMatch RuleContains uri x hx] at hv
        exact hne x (List.mem_cons_self _ _) hx hv
      · rw [hv]; exact hne x (List.mem_cons_self _ _) hx
    · apply ih _ hne'
      obtain ⟨p, hp, hm⟩ := hex
      rcases List.mem_cons.mp hp with rfl | hp'
      · exact absurd hm hx
      · exact ⟨p, hp', hm⟩

/-- When the matching patterns are totally pre-ordered by `RuleContains` and none of them is
empty, the final candidate contains no other: every matching pattern of the list, and the
initial candidate, is contained in it. -/
theorem candidateAfter_maximal (U : String → Prop) (hne : ∀ a, U a → a ≠ "")
    (htot : ∀ a b, U a → U b → RuleContains a b = true ∨ RuleContains b a = true)
    (htr : ∀ a b c, U a → U b → U c →
      RuleContains a b = true → RuleContains b c = true → RuleContains a c = true)
    (l : List String) (c : String) (hl : ∀ x ∈ l, IsMatch x uri = true → U x)
    (hc : c = "" ∨ U c) :
    (c = "" ∨ RuleContains c (candidateAfter IsMatch RuleContains uri c l) = true) ∧
      (∀ x ∈ l, IsMatch x uri = true →
        RuleContains x (candidateAfter IsMatch RuleContains uri c l) = true) ∧
      (candidateAfter IsMatch RuleContains uri c l = c ∨
        U (candidateAfter IsMatch RuleContains uri c l)) := by
  induction l generalizing c with
  | nil =>
    refine ⟨?_, fun x hx _ => absurd hx (List.not_mem_nil x), Or.inl rfl⟩
    rcases hc with hc | hc
    · exact Or.inl hc
    · right
      rcases htot c c hc hc with h | h <;> exact h
  | cons x xs ih =>
    have hxs : ∀ y ∈ xs, IsMatch y uri = true → U y :=
      fun y hy => hl y (List.mem_cons_of_mem _ hy)
    rw [candidateAfter_cons]
    by_cases hx : IsMatch x uri = true
    · have hUx : U x := hl x (List.mem_cons_self _ _) hx
      by_cases hce : c = ""
      · -- no candidate yet: `x` becomes the candidate
        subst hce
        rw [matchedPathVisit_of_empty IsMatch RuleContains uri x hx]
        obtain ⟨i1, i2, i3⟩ := ih x hxs (Or.inr hUx)
        have hxr : RuleContains x (candidateAfter IsMatch RuleContains uri x xs) = true := by
          rcases i1 with h | h
          · exact absurd h (hne x hUx)
          · exact h
        refine ⟨Or.inl rfl, ?_, ?_⟩
        · intro y hy hm
          rcases List.mem_cons.mp hy with rfl | hy'
          · exact hxr
          · exact i2 y hy' hm
        · right
          rcases i3 with h | h
          · rw [h]; exact hUx
          · exact h
      · have hUc : U c := by
          rcases hc with h | h
          · exact absurd h hce
          · exact h
        by_cases hr : RuleContains x c = true
        · -- `x` is contained in the candidate: the candidate is kept
          rw [matchedPathVisit_of_contains IsMatch RuleContains uri c x hx hce hr]
          obtain ⟨i1, i2, i3⟩ := ih c hxs (Or.inr hUc)
          have hUr : U (candidateAfter IsMatch RuleContains uri c xs) := by
            rcases i3 with h | h
            · rw [h]; exact hUc
            · exact h
          have hcr : RuleContains c (candidateAfter IsMatch RuleContains uri c xs) = true := by
            rcases i1 with h | h
            · exact absurd h hce
            · exact h
          refine ⟨Or.inr hcr, ?_, i3⟩
          intro y hy hm
          rcases List.mem_cons.mp hy with rfl | hy'
          · exact htr _ c _ hUx hUc hUr hr hcr
          · exact i2 y hy' hm
        · -- `x` is not contained in the candidate: it replaces the candidate
          have hr' : RuleContains x c = false := by simpa using hr
          rw [matchedPathVisit_of_not_contains IsMatch RuleContains uri c x hx hr']
          obtain ⟨i1, i2, i3⟩ := ih x hxs (Or.inr hUx)
          have hUr : U (candidateAfter IsMatch RuleContains uri x xs) := by
            rcases i3 with h | h
            · rw [h]; exact hUx
            · exact h
          have hxr : RuleContains x (candidateAfter IsMatch RuleContains uri x xs) = true := by
            rcases i1 with h | h
            · exact absurd h (hne x hUx)
            · exact h
          have hcx : RuleContains c x = true := by
            rcases htot c x hUc hUx with h | h
            · exact h
            · exact absurd h hr
          refine ⟨Or.inr (htr c x _ hUc hUx hUr hcx hxr), ?_, Or.inr hUr⟩
          intro y hy hm
          rcases List.mem_cons.mp hy with rfl | hy'
          · exact hxr
          · exact i2 y hy' hm
    · have hx' : IsMatch x uri = false := by simpa using hx
      rw [matchedPathVisit_of_not_match IsMatch RuleContains uri c x hx']
      obtain ⟨i1, i2, i3⟩ := ih c hxs hc
      refine ⟨i1, ?_, i3⟩
      intro y hy hm
      rcases List.mem_cons.mp hy with rfl | hy'
      · exact absurd hm hx
      · exact i2 y hy' hm

/-- The result of `matchedPath` when the candidate held at the end is non-empty. -/
theorem matchedPath_of_candidate_ne (rh : RestHandler)
    (h : candidateAfter IsMatch RuleContains uri "" rh.patterns ≠ "") :
    matchedPath IsMatch RuleContains rh uri =
      (candidateAfter IsMatch RuleContains uri "" rh.patterns, true) := by
  rw [matchedPath_eq_candidateAfter, if_neg h]

/-- A pattern returned by `matchedPath` is registered, matches the URI and is the candidate
held at the end of the enumeration. -/
theorem matchedPath_true (rh : RestHandler) (p : String)
    (h : matchedPath IsMatch RuleContains rh uri = (p, true)) :
    p = candidateAfter IsMatch RuleContains uri "" rh.patterns ∧ p ≠ "" ∧
      p ∈ rh.patterns ∧ IsMatch p uri = true := by
  rw [matchedPath_eq_candidateAfter] at h
  by_cases hc : candidateAfter IsMatch RuleContains uri "" rh.patterns = ""
  · rw [if_pos hc] at h
    cases h
  · rw [if_neg hc] at h
    have hp : candidateAfter IsMatch RuleContains uri "" rh.patterns = p :=
      congrArg Prod.fst h
    rcases candidateAfter_mem IsMatch RuleContains uri rh.patterns "" with h0 | ⟨h1, h2⟩
    · exact absurd h0 hc
    · rw [hp] at h1 h2 hc
      exact ⟨hp.symm, hc, h1, h2⟩

end MatchedPath

/-! ## The matcher of package `utils`: empty pattern and order of literal prefixes -/

/-- The empty pattern matches no URI that `httpHandler` passes on to `matchedPath`, that is,
no URI with at least two sections. -/
theorem wildcardIsMatch_empty_pattern (uri : String)
    (hguard : 2 ≤ (stringsSplit uri).length) : wildcardIsMatch "" uri = false := by
  have hsplit : stringsSplit "" = [""] := by decide
  unfold wildcardIsMatch
  rw [hsplit]
  generalize stringsSplit uri = us at hguard
  match us, hguard with
  | [], h => simp at h
  | [_], h => simp at h
  | a :: b :: rest, _ => simp [segmentsMatch]

/-- A pattern that matches a URI with at least two sections is not the empty string. -/
theorem ne_empty_of_wildcardIsMatch (p uri : String)
    (hguard : 2 ≤ (stringsSplit uri).length) (hm : wildcardIsMatch p uri = true) : p ≠ "" := by
  intro hp
  rw [hp, wildcardIsMatch_empty_pattern uri hguard] at hm
  cases hm

/-- The literal prefix of a pattern that matches a path is an initial part of the path. -/
theorem initialPartOf_leadingLiterals_of_match (ps us : List String)
    (h : segmentsMatch ps us = true) : initialPartOf (leadingLiterals ps) us = true := by
  induction ps generalizing us with
  | nil => simp [leadingLiterals, initialPartOf]
  | cons p ps ih =>
    by_cases hw : p = "*" ∨ p = "**"
    · simp [leadingLiterals, hw, initialPartOf]
    · have h1 : p ≠ "*" := fun h' => hw (Or.inl h')
      have h2 : p ≠ "**" := fun h' => hw (Or.inr h')
      cases us with
      | nil => simp [segmentsMatch, h2] at h
      | cons u us' =>
        simp only [segmentsMatch, h2, if_false, h1, decide_False, Bool.false_or,
          Bool.and_eq_true, decide_eq_true_eq] at h
        simp only [leadingLiterals, hw, if_false, initialPartOf, Bool.and_eq_true,
          decide_eq_true_eq]
        exact ⟨h.1, ih us' h.2⟩

/-- Two initial parts of one list: one of them is an initial part of the other. -/
theorem initialPartOf_total (xs ys us : List String)
    (hx : initialPartOf xs us = true) (hy : initialPartOf ys us = true) :
    initialPartOf xs ys = true ∨ initialPartOf ys xs = true := by
  induction xs generalizing ys us with
  | nil => left; simp [initialPartOf]
  | cons x xs ih =>
    cases ys with
    | nil => right; simp [initialPartOf]
    | cons y ys' =>
      cases us with
      | nil => simp [initialPartOf] at hx
      | cons u us' =>
        simp only [initialPartOf, Bool.and_eq_true, decide_eq_true_eq] at hx hy
        have hxy : x = y := hx.1.trans hy.1.symm
        rcases ih ys' us' hx.2 hy.2 with h | h
        · left
          simp only [initialPartOf, Bool.and_eq_true, decide_eq_true_eq]
          exact ⟨hxy, h⟩
        · right
          simp only [initialPartOf, Bool.and_eq_true, decide_eq_true_eq]
          exact ⟨hxy.symm, h⟩

/-- Being an initial part is transitive. -/
theorem initialPartOf_trans (xs ys zs : List String)
    (h1 : initialPartOf xs ys = true) (h2 : initialPartOf ys zs = true) :
    initialPartOf xs zs = true := by
  induction xs generalizing ys zs with
  | nil => simp [initialPartOf]
  | cons x xs ih =>
    cases ys with
    | nil => simp [initialPartOf] at h1
    | cons y ys' =>
      cases zs with
      | nil => simp [initialPartOf] at h2
      | cons z zs' =>
        simp only [initialPartOf, Bool.and_eq_true, decide_eq_true_eq] at h1 h2 ⊢
        exact ⟨h1.1.trans h2.1, ih ys' zs' h1.2 h2.2⟩

/-- Two patterns that match one URI are comparable: the literal prefix of one of them is
contained in that of the other. -/
theorem literalRuleContains_total_of_match (a b uri : String)
    (ha : wildcardIsMatch a uri = true) (hb : wildcardIsMatch b uri = true) :
    literalRuleContains a b = true ∨ literalRuleContains b a = true :=
  initialPartOf_total _ _ (stringsSplit uri)
    (initialPartOf_leadingLiterals_of_match _ _ ha)
    (initialPartOf_leadingLiterals_of_match _ _ hb)

/-- Containment of literal prefixes is transitive. -/
theorem literalRuleContains_trans (a b c : String)
    (h1 : literalRuleContains a b = true) (h2 : literalRuleContains b c = true) :
    literalRuleContains a c = true :=
  initialPartOf_trans _ _ _ h1 h2

/-! ## Path matcher: selection and specificity -/

/-- For every matcher: when no registered pattern matching the URI is the empty string,
`matchedPath` returns `("", false)` if no registered pattern matches, otherwise `(p, true)`
for a registered pattern `p` that matches, which is the matching pattern when there is only
one. -/
theorem matchedPath_selects_of_ne_empty (IsMatch RuleContains : String → String → Bool)
    (rh : RestHandler) (uri : String)
    (hne : ∀ p ∈ rh.patterns, IsMatch p uri = true → p ≠ "") :
    ((∀ p ∈ rh.patterns, IsMatch p uri = false) →
        matchedPath IsMatch RuleContains rh uri = ("", false)) ∧
      ((∃ p ∈ rh.patterns, IsMatch p uri = true) →
        ∃ p, matchedPath IsMatch RuleContains rh uri = (p, true) ∧
          p ∈ rh.patterns ∧ IsMatch p uri = true) ∧
      (∀ p ∈ rh.patterns, IsMatch p uri = true →
        (∀ q ∈ rh.patterns, IsMatch q uri = true → q = p) →
        matchedPath IsMatch RuleContains rh uri = (p, true)) := by
  have some_match : (∃ p ∈ rh.patterns, IsMatch p uri = true) →
      ∃ p, matchedPath IsMatch RuleContains rh uri = (p, true) ∧
        p ∈ rh.patterns ∧ IsMatch p uri = true := by
    intro hex
    have hc := candidateAfter_ne_empty_of_match IsMatch RuleContains uri rh.patterns "" hne hex
    have hm := matchedPath_of_candidate_ne IsMatch RuleContains uri rh hc
    exact ⟨_, hm, (matchedPath_true IsMatch RuleContains uri rh _ hm).2.2⟩
  refine ⟨?_, some_match, ?_⟩
  · intro hno
    rw [matchedPath_eq_candidateAfter,
      candidateAfter_of_no_match IsMatch RuleContains uri rh.patterns "" hno]
    rfl
  · intro p hp hm huniq
    obtain ⟨q, hq, hq1, hq2⟩ := some_match ⟨p, hp, hm⟩
    rw [hq, huniq q hq1 hq2]

/-- C1: for every set of registered patterns, in any enumeration order, and every request URI
that `httpHandler` passes on (at least two sections), `matchedPath` selects exactly one
pattern or none: it returns `("", false)` when no registered pattern matches the URI, and
otherwise `(p, true)` for a registered pattern `p` that matches; when exactly one registered
pattern matches, that pattern is returned. -/
theorem matchedPath_selects (RuleContains : String → String → Bool)
    (rh : RestHandler) (uri : String) (hguard : 2 ≤ (stringsSplit uri).length) :
    ((∀ p ∈ rh.patterns, wildcardIsMatch p uri = false) →
        matchedPath wildcardIsMatch RuleContains rh uri = ("", false)) ∧
      ((∃ p ∈ rh.patterns, wildcardIsMatch p uri = true) →
        ∃ p, matchedPath wildcardIsMatch RuleContains rh uri = (p, true) ∧
          p ∈ rh.patterns ∧ wildcardIsMatch p uri = true) ∧
      (∀ p ∈ rh.patterns, wildcardIsMatch p uri = true →
        (∀ q ∈ rh.patterns, wildcardIsMatch q uri = true → q = p) →
        matchedPath wildcardIsMatch RuleContains rh uri = (p, true)) :=
  matchedPath_selects_of_ne_empty wildcardIsMatch RuleContains rh uri
    (fun p _ hm => ne_empty_of_wildcardIsMatch p uri hguard hm)

/-- Witness of C1: with the empty pattern, `/n/a` and `/n/b` registered, the URI `/n/a`
selects `/n/a`, and the URI `/n/c` selects nothing. -/
theorem matchedPath_selects_witness :
    2 ≤ (stringsSplit "/n/a").length ∧
      matchedPath wildcardIsMatch literalRuleContains
        (sampleRestHandler ["", "/n/a", "/n/b"]) "/n/a" = ("/n/a", true) ∧
      matchedPath wildcardIsMatch literalRuleContains
        (sampleRestHandler ["", "/n/a", "/n/b"]) "/n/c" = ("", false) :=
  ⟨by decide,
    (matchedPath_selects literalRuleContains
      (sampleRestHandler ["", "/n/a", "/n/b"]) "/n/a" (by decide)).2.2 "/n/a"
      (by decide) (by decide) (by decide),
    (matchedPath_selects literalRuleContains
      (sampleRestHandler ["", "/n/a", "/n/b"]) "/n/c" (by decide)).1 (by decide)⟩

/-- C2: for every set of registered patterns, every enumeration order and every URI that
`httpHandler` passes on: if registered patterns `P1` and `P2` both match the URI and `P2` is
the less specific (`RuleContains(P2, P1)` holds, `RuleContains(P1, P2)` does not), then
`matchedPath` does not return `P2`; and when `P1` and `P2` are the only matching patterns it
returns `P1`, whatever the order of enumeration. -/
theorem matchedPath_prefers_specific (rh : RestHandler) (uri P1 P2 : String)
    (hguard : 2 ≤ (stringsSplit uri).length)
    (h1 : P1 ∈ rh.patterns) (_h2 : P2 ∈ rh.patterns)
    (m1 : wildcardIsMatch P1 uri = true) (_m2 : wildcardIsMatch P2 uri = true)
    (_hc : literalRuleContains P2 P1 = true) (hn : literalRuleContains P1 P2 = false) :
    matchedPath wildcardIsMatch literalRuleContains rh uri ≠ (P2, true) ∧
      ((∀ q ∈ rh.patterns, wildcardIsMatch q uri = true → q = P1 ∨ q = P2) →
        matchedPath wildcardIsMatch literalRuleContains rh uri = (P1, true)) := by
  have hnot : matchedPath wildcardIsMatch literalRuleContains rh uri ≠ (P2, true) := by
    intro hret
    obtain ⟨hp, -, -, -⟩ := matchedPath_true wildcardIsMatch literalRuleContains uri rh P2 hret
    have hmax := (candidateAfter_maximal wildcardIsMatch literalRuleContains uri
      (fun p => wildcardIsMatch p uri = true)
      (fun a ha => ne_empty_of_wildcardIsMatch a uri hguard ha)
      (fun a b ha hb => literalRuleContains_total_of_match a b uri ha hb)
      (fun a b c _ _ _ hab hbc => literalRuleContains_trans a b c hab hbc)
      rh.patterns "" (fun _ _ hm => hm) (Or.inl rfl)).2.1 P1 h1 m1
    rw [← hp, hn] at hmax
    cases hmax
  refine ⟨hnot, ?_⟩
  intro honly
  obtain ⟨q, hq, hq1, hq2⟩ :=
    (matchedPath_selects_of_ne_empty wildcardIsMatch literalRuleContains rh uri
      (fun p _ hm => ne_empty_of_wildcardIsMatch p uri hguard hm)).2.1 ⟨P1, h1, m1⟩
  rcases honly q hq1 hq2 with h | h
  · rw [hq, h]
  · rw [h] at hq
    exact absurd hq hnot

/-- Witness of C2: `/n/a/b` and `/n/*/b` both match `/n/a/b`, the wildcard pattern being the
less specific, and `/n/a/b` is returned in both enumeration orders; with `/n/a/b/*`,
`/n/*/*/c` and `/n/*/b/*` all matching `/n/a/b/c`, the less specific `/n/*/b/*` is not
returned. -/
theorem matchedPath_prefers_specific_witness :
    literalRuleContains "/n/*/b" "/n/a/b" = true ∧
      literalRuleContains "/n/a/b" "/n/*/b" = false ∧
      matchedPath wildcardIsMatch literalRuleContains
        (sampleRestHandler ["/n/a/b", "/n/x", "/n/*/b"]) "/n/a/b" = ("/n/a/b", true) ∧
      matchedPath wildcardIsMatch literalRuleContains
        (sampleRestHandler ["/n/*/b", "/n/x", "/n/a/b"]) "/n/a/b" = ("/n/a/b", true) ∧
      matchedPath wildcardIsMatch literalRuleContains
        (sampleRestHandler ["/n/a/b/*", "/n/*/*/c", "/n/*/b/*"]) "/n/a/b/c" ≠
        ("/n/*/b/*", true) :=
  ⟨by decide, by decide,
    (matchedPath_prefers_specific (sampleRestHandler ["/n/a/b", "/n/x", "/n/*/b"])
      "/n/a/b" "/n/a/b" "/n/*/b" (by decide) (by decide) (by decide) (by decide) (by decide)
      (by decide) (by decide)).2 (by decide),
    (matchedPath_prefers_specific (sampleRestHandler ["/n/*/b", "/n/x", "/n/a/b"])
      "/n/a/b" "/n/a/b" "/n/*/b" (by decide) (by decide) (by decide) (by decide) (by decide)
      (by decide) (by decide)).2 (by decide),
    (matchedPath_prefers_specific (sampleRestHandler ["/n/a/b/*", "/n/*/*/c", "/n/*/b/*"])
      "/n/a/b/c" "/n/a/b/*" "/n/*/b/*" (by decide) (by decide) (by decide) (by decide)
      (by decide) (by decide) (by decide)).1⟩

/-! ## Two matching patterns: which one is kept -/

/-- Two patterns that match one URI are never incomparable under containment of literal
prefixes. -/
theorem literalRuleContains_not_incomparable_of_match (a b uri : String)
    (ha : wildcardIsMatch a uri = true) (hb : wildcardIsMatch b uri = true) :
    ¬ (literalRuleContains a b = false ∧ literalRuleContains b a = false) := by
  rintro ⟨h1, h2⟩
  rcases literalRuleContains_total_of_match a b uri ha hb with h | h
  · rw [h1] at h
    cases h
  · rw [h2] at h
    cases h

/-- For every matcher: when exactly two registered patterns match the URI, `A` enumerated
before `B`, the closure of `matchedPath` keeps `A` if `RuleContains B A` holds and replaces
it by `B` if not. -/
theorem matchedPath_of_two_matches (IsMatch RuleContains : String → String → Bool)
    (rh : RestHandler) (uri A B : String)
    (hfil : rh.patterns.filter (fun p => IsMatch p uri) = [A, B])
    (hA : A ≠ "") (hB : B ≠ "") :
    (RuleContains B A = true → matchedPath IsMatch RuleContains rh uri = (A, true)) ∧
      (RuleContains B A = false → matchedPath IsMatch RuleContains rh uri = (B, true)) := by
  have hmemA : A ∈ rh.patterns.filter (fun p => IsMatch p uri) := by
    rw [hfil]; exact List.mem_cons_self _ _
  have hmemB : B ∈ rh.patterns.filter (fun p => IsMatch p uri) := by
    rw [hfil]; exact List.mem_cons_of_mem _ (List.mem_cons_self _ _)
  have mA : IsMatch A uri = true := by simpa using (List.mem_filter.mp hmemA).2
  have mB : IsMatch B uri = true := by simpa using (List.mem_filter.mp hmemB).2
  constructor
  · intro hBA
    have key : candidateAfter IsMatch RuleContains uri "" rh.patterns = A := by
      rw [candidateAfter_filter, hfil, candidateAfter_cons, candidateAfter_cons,
        matchedPathVisit_of_empty IsMatch RuleContains uri A mA,
        matchedPathVisit_of_contains IsMatch RuleContains uri A B mB hA hBA]
      rfl
    rw [matchedPath_eq_candidateAfter, key, if_neg hA]
  · intro hBA
    have key : candidateAfter IsMatch RuleContains uri "" rh.patterns = B := by
      rw [candidateAfter_filter, hfil, candidateAfter_cons, candidateAfter_cons,
        matchedPathVisit_of_empty IsMatch RuleContains uri A mA,
        matchedPathVisit_of_not_contains IsMatch RuleContains uri A B mB hBA]
      rfl
    rw [matchedPath_eq_candidateAfter, key, if_neg hB]

/-- Two patterns with the same literal prefix that both match: the one enumerated first is
returned, in either order. -/
theorem matchedPath_same_literals_keeps_first :
    literalRuleContains "/n/*/c" "/n/**" = true ∧ literalRuleContains "/n/**" "/n/*/c" = true ∧
      matchedPath wildcardIsMatch literalRuleContains
        (sampleRestHandler ["/n/*/c", "/n/**"]) "/n/b/c" = ("/n/*/c", true) ∧
      matchedPath wildcardIsMatch literalRuleContains
        (sampleRestHandler ["/n/**", "/n/*/c"]) "/n/b/c" = ("/n/**", true) := by
  decide

/-! ## Header copying -/

section HeaderLemmas

variable (canon : String → String)

theorem lookup_filter_ne {β : Type} (h : List (String × β)) (k ck : String) (hk : k ≠ ck) :
    (h.filter (fun e => e.1 ≠ ck)).lookup k = h.lookup k := by
  induction h with
  | nil => rfl
  | cons e es ih =>
    obtain ⟨ek, ev⟩ := e
    by_cases he : ek = ck
    · subst he
      have hf : ((ek, ev) :: es).filter (fun e => e.1 ≠ ek) =
          es.filter (fun e => e.1 ≠ ek) := by simp [List.filter_cons]
      have hb : (k == ek) = false := by simp [hk]
      rw [hf, ih, List.lookup_cons, hb]
    · have hf : ((ek, ev) :: es).filter (fun e => e.1 ≠ ck) =
          (ek, ev) :: es.filter (fun e => e.1 ≠ ck) := by simp [List.filter_cons, he]
      rw [hf, List.lookup_cons, List.lookup_cons, ih]

theorem lookup_filter_self {β : Type} (h : List (String × β)) (k : String) :
    (h.filter (fun e => e.1 ≠ k)).lookup k = none := by
  induction h with
  | nil => rfl
  | cons e es ih =>
    obtain ⟨ek, ev⟩ := e
    by_cases he : ek = k
    · subst he
      have hf : ((ek, ev) :: es).filter (fun e => e.1 ≠ ek) =
          es.filter (fun e => e.1 ≠ ek) := by simp [List.filter_cons]
      rw [hf, ih]
    · have hf : ((ek, ev) :: es).filter (fun e => e.1 ≠ k) =
          (ek, ev) :: es.filter (fun e => e.1 ≠ k) := by simp [List.filter_cons, he]
      have hb : (k == ek) = false := by
        have : k ≠ ek := fun h' => he h'.symm
        simp [this]
      rw [hf, List.lookup_cons, hb, ih]

/-- The values under each key after one `Add`. -/
theorem Header.values_Add (h : Header) (key value k : String) :
    Header.values (Header.Add canon h key value) k =
      if k = canon key then Header.values h k ++ [value] else Header.values h k := by
  unfold Header.Add Header.values
  by_cases hk : k = canon key
  · subst hk
    rw [if_pos rfl, List.lookup_cons]
    simp
  · have hb : (k == canon key) = false := by simp [hk]
    rw [if_neg hk, List.lookup_cons, hb]
    simp only []
    rw [lookup_filter_ne h k (canon key) hk]

/-- The values under each key after all values of one entry have been added. -/
theorem Header.values_foldl_Add (vs : List String) (h : Header) (key k : String) :
    Header.values (vs.foldl (fun h' value => Header.Add canon h' key value) h) k =
      if k = canon key then Header.values h k ++ vs else Header.values h k := by
  induction vs generalizing h with
  | nil => simp
  | cons v vs ih =>
    rw [List.foldl_cons, ih, Header.values_Add]
    by_cases hk : k = canon key
    · simp [hk]
    · simp [hk]

/-- The values under each key after `copyHeader`: those held before, followed by the values
of the copied entries with that canonical key, in the order of enumeration. -/
theorem values_copyHeader (src dst : Header) (k : String) :
    Header.values (copyHeader canon dst src) k =
      Header.values dst k ++
        ((src.filter (fun kv => canon kv.1 = k)).map Prod.snd).flatten := by
  unfold copyHeader
  induction src generalizing dst with
  | nil => simp
  | cons kv rest ih =>
    rw [List.foldl_cons, ih, Header.values_foldl_Add]
    by_cases hk : k = canon kv.1
    · have hf : (kv :: rest).filter (fun kv => canon kv.1 = k) =
          kv :: rest.filter (fun kv => canon kv.1 = k) := by simp [List.filter_cons, hk]
      rw [if_pos hk, hf]
      simp [List.append_assoc]
    · have hf : (kv :: rest).filter (fun kv => canon kv.1 = k) =
          rest.filter (fun kv => canon kv.1 = k) := by
        have : ¬ canon kv.1 = k := fun h' => hk h'.symm
        simp [List.filter_cons, this]
      rw [if_neg hk, hf]

/-- Every entry of the copied header is carried over: its values appear, contiguous and in
order, among the values of its canonical key. -/
theorem values_copyHeader_carries (src dst : Header) (kv : String × List String)
    (hkv : kv ∈ src) :
    ∃ pre post,
      Header.values (copyHeader canon dst src) (canon kv.1) = pre ++ kv.2 ++ post := by
  obtain ⟨s1, s2, rfl⟩ := List.append_of_mem hkv
  refine ⟨Header.values dst (canon kv.1) ++
      ((s1.filter (fun e => canon e.1 = canon kv.1)).map Prod.snd).flatten,
    ((s2.filter (fun e => canon e.1 = canon kv.1)).map Prod.snd).flatten, ?_⟩
  rw [values_copyHeader]
  have hf : (kv :: s2).filter (fun e => canon e.1 = canon kv.1) =
      kv :: s2.filter (fun e => canon e.1 = canon kv.1) := by simp [List.filter_cons]
  rw [List.filter_append, hf]
  simp [List.append_assoc]

end HeaderLemmas

/-- A registered pattern has a handler in the registry. -/
theorem lookup_of_mem_patterns (rh : RestHandler) (p : String) (hp : p ∈ rh.patterns) :
    ∃ handle, rh.handlers.lookup p = some handle := by
  unfold RestHandler.patterns at hp
  generalize rh.handlers = hs at hp
  induction hs with
  | nil => cases hp
  | cons e es ih =>
    obtain ⟨ek, ev⟩ := e
    rw [List.lookup_cons]
    by_cases he : p = ek
    · exact ⟨ev, by simp [he]⟩
    · have hb : (p == ek) = false := by simp [he]
      rw [hb]
      rw [List.map_cons] at hp
      rcases List.mem_cons.mp hp with h | h
      · exact absurd h he
      · exact ih h

/-! ## Authority resolution and the local bridge -/

section HttpHandler

variable (IsMatch RuleContains : String → String → Bool) (canon : String → String)
  (RouterURLAnnotationKey routerURL : String) (rh : RestHandler) (msgID : String)
  (w : ResponseWriter) (r : Request)

/-- A text reply invokes no handler and calls no proxy. -/
theorem replyText_calls (code : Int) (text : String) :
    (replyText w code text).invoked = [] ∧ (replyText w code text).proxied = [] := by
  unfold replyText
  cases w.WriteHeader code <;> exact ⟨rfl, rfl⟩

/-- The first `WriteHeader` on a writer, with a code in 100..999, sets the status. -/
theorem WriteHeader_fresh (code : Int) (hs : w.statusCode = none)
    (hlo : 100 ≤ code) (hhi : code ≤ 999) :
    w.WriteHeader code = some { w with statusCode := some code } := by
  unfold ResponseWriter.WriteHeader
  rw [hs]
  have hv : ¬ (code < 100 ∨ code > 999) := by omega
  simp only [hv, if_false]

/-- A `Write` under a status that admits a body appends the bytes and keeps the status and
the header. -/
theorem Write_allowed (code : Int) (b : List UInt8) (hs : w.statusCode = some code)
    (hallowed : bodyAllowedForStatus code = true) :
    (w.Write b).statusCode = some code ∧ (w.Write b).body = w.body ++ b ∧
      (w.Write b).header = w.header := by
  unfold ResponseWriter.Write
  rw [hs]
  by_cases hb : b = []
  · subst hb
    simp
  · simp [hb, hallowed]

/-- A text reply with a code in 100..999 that admits a body, on a writer with nothing
written: the status is the code and the body is the text. -/
theorem replyText_fresh (code : Int) (text : String)
    (hs : w.statusCode = none) (hb : w.body = [])
    (hlo : 100 ≤ code) (hhi : code ≤ 999) (hallowed : bodyAllowedForStatus code = true) :
    (replyText w code text).w.statusCode = some code ∧
      (replyText w code text).w.body = bytesOf text ∧
      (replyText w code text).w.header = w.header ∧
      (replyText w code text).invoked = [] ∧ (replyText w code text).proxied = [] ∧
      (replyText w code text).panicked = false := by
  unfold replyText
  rw [WriteHeader_fresh w code hs hlo hhi]
  obtain ⟨h1, h2, h3⟩ := Write_allowed { w with statusCode := some code } code (bytesOf text)
    rfl hallowed
  refine ⟨h1, ?_, h3, rfl, rfl, rfl⟩
  rw [h2]
  simp [hb]

/-- C4: for a request whose URI has a first path segment and for which a registered pattern
is matched, if the node lookup for that segment fails, or the node has no annotations, or its
router-URL annotation is empty, the response is 404 with body `No rule match`; no registered
handler is invoked and `serveReverseProxy` is not called. -/
theorem httpHandler_unknown_node (p : String)
    (hlen : 2 ≤ (stringsSplit r.RequestURI).length)
    (hm : matchedPath IsMatch RuleContains rh r.RequestURI = (p, true))
    (hs : w.statusCode = none) (hb : w.body = [])
    (hnode : rh.nodeLister ((stringsSplit r.RequestURI).getD 1 "") = none ∨
      ∃ node, rh.nodeLister ((stringsSplit r.RequestURI).getD 1 "") = some node ∧
        (node.Annotations = none ∨
          ∃ annotations, node.Annotations = some annotations ∧
            mapIndex annotations RouterURLAnnotationKey = "")) :
    (httpHandler IsMatch RuleContains canon RouterURLAnnotationKey routerURL rh msgID w r
        ).w.statusCode = some 404 ∧
      (httpHandler IsMatch RuleContains canon RouterURLAnnotationKey routerURL rh msgID w r
        ).w.body = bytesOf "No rule match" ∧
      (httpHandler IsMatch RuleContains canon RouterURLAnnotationKey routerURL rh msgID w r
        ).invoked = [] ∧
      (httpHandler IsMatch RuleContains canon RouterURLAnnotationKey routerURL rh msgID w r
        ).proxied = [] := by
  have h2 : ¬ (stringsSplit r.RequestURI).length < 2 := by omega
  have key : httpHandler IsMatch RuleContains canon RouterURLAnnotationKey routerURL rh msgID
      w r = replyText w StatusNotFound "No rule match" := by
    unfold httpHandler
    simp only [h2, if_false, hm]
    rcases hnode with hn | ⟨node, hn, ha | ⟨annotations, ha, he⟩⟩
    · simp only [hn]
    · simp only [hn, ha]
    · simp only [hn, ha, he, if_true]
  rw [key]
  obtain ⟨h1, h3, -, h4, h5, -⟩ :=
    replyText_fresh w StatusNotFound "No rule match" hs hb (by decide) (by decide) (by decide)
  exact ⟨h1, h3, h4, h5⟩

/-- C5: for a request whose URI has a first path segment, for which a registered pattern `p`
is matched and whose node has a non-empty router-URL annotation `A`: if `A` equals
`routerURL`, `serveReverseProxy` is not called and, when the body is read within the limit,
the handler registered for `p` is invoked exactly once; if `A` differs from `routerURL`,
`serveReverseProxy` is called once, with target `A`, and no registered handler is invoked. -/
theorem httpHandler_authority (p : String) (node : Node) (annotations : List (String × String))
    (hlen : 2 ≤ (stringsSplit r.RequestURI).length)
    (hm : matchedPath IsMatch RuleContains rh r.RequestURI = (p, true))
    (hn : rh.nodeLister ((stringsSplit r.RequestURI).getD 1 "") = some node)
    (ha : node.Annotations = some annotations)
    (hA : mapIndex annotations RouterURLAnnotationKey ≠ "") :
    (mapIndex annotations RouterURLAnnotationKey = routerURL →
        (httpHandler IsMatch RuleContains canon RouterURLAnnotationKey routerURL rh msgID w r
          ).proxied = [] ∧
        ∀ b, readAllMaxBytes r.Body MaxMessageBytes = .ok b →
          (∃ handle, rh.handlers.lookup p = some handle) ∧
          (httpHandler IsMatch RuleContains canon RouterURLAnnotationKey routerURL rh msgID w r
            ).invoked =
            [(p, { messageID := msgID, request := r, timeout := rh.restTimeout, data := b })]) ∧
      (mapIndex annotations RouterURLAnnotationKey ≠ routerURL →
        (httpHandler IsMatch RuleContains canon RouterURLAnnotationKey routerURL rh msgID w r
          ).proxied = [(mapIndex annotations RouterURLAnnotationKey, r)] ∧
        (httpHandler IsMatch RuleContains canon RouterURLAnnotationKey routerURL rh msgID w r
          ).invoked = []) := by
  have h2 : ¬ (stringsSplit r.RequestURI).length < 2 := by omega
  obtain ⟨handle, hh⟩ := lookup_of_mem_patterns rh p
    (matchedPath_true IsMatch RuleContains r.RequestURI rh p hm).2.2.1
  constructor
  · intro heq
    have hne : ¬ mapIndex annotations RouterURLAnnotationKey ≠ routerURL := fun h' => h' heq
    constructor
    · unfold httpHandler
      simp only [h2, if_false, hm, hn, ha, hA, hne, hh]
      cases hbody : readAllMaxBytes r.Body MaxMessageBytes with
      | error e => exact (replyText_calls w StatusBadRequest "Request error,body is null").2
      | ok b => rfl
    · intro b hbody
      refine ⟨⟨handle, hh⟩, ?_⟩
      unfold httpHandler
      simp only [h2, if_false, hm, hn, ha, hA, hne, hh, hbody]
  · intro hdiff
    unfold httpHandler
    simp only [h2, if_false, hm, hn, ha, hA]
    rw [if_pos hdiff]
    exact ⟨rfl, rfl⟩

/-- C8: for a locally handled request (first path segment present, pattern `p` matched, the
node's router-URL annotation non-empty and equal to `routerURL`): when the body is longer
than `MaxMessageBytes` or its read fails, the response is 400 with body
`Request error,body is null` and no handler is invoked; a body of at most `MaxMessageBytes`
bytes that is read without failure is passed unchanged to the handler as `params["data"]`. -/
theorem httpHandler_request_body (p : String) (node : Node)
    (annotations : List (String × String))
    (hlen : 2 ≤ (stringsSplit r.RequestURI).length)
    (hm : matchedPath IsMatch RuleContains rh r.RequestURI = (p, true))
    (hn : rh.nodeLister ((stringsSplit r.RequestURI).getD 1 "") = some node)
    (ha : node.Annotations = some annotations)
    (hA : mapIndex annotations RouterURLAnnotationKey ≠ "")
    (hloc : mapIndex annotations RouterURLAnnotationKey = routerURL)
    (hs : w.statusCode = none) (hb : w.body = []) :
    ((MaxMessageBytes < r.Body.data.length ∨ r.Body.readErr = true) →
        (httpHandler IsMatch RuleContains canon RouterURLAnnotationKey routerURL rh msgID w r
          ).w.statusCode = some 400 ∧
        (httpHandler IsMatch RuleContains canon RouterURLAnnotationKey routerURL rh msgID w r
          ).w.body = bytesOf "Request error,body is null" ∧
        (httpHandler IsMatch RuleContains canon RouterURLAnnotationKey routerURL rh msgID w r
          ).invoked = []) ∧
      (r.Body.data.length ≤ MaxMessageBytes → r.Body.readErr = false →
        (httpHandler IsMatch RuleContains canon RouterURLAnnotationKey routerURL rh msgID w r
          ).invoked =
          [(p, { messageID := msgID, request := r, timeout := rh.restTimeout,
                 data := r.Body.data })]) := by
  have h2 : ¬ (stringsSplit r.RequestURI).length < 2 := by omega
  have hne : ¬ mapIndex annotations RouterURLAnnotationKey ≠ routerURL := fun h' => h' hloc
  obtain ⟨handle, hh⟩ := lookup_of_mem_patterns rh p
    (matchedPath_true IsMatch RuleContains r.RequestURI rh p hm).2.2.1
  constructor
  · intro hbad
    have hread : ∃ e, readAllMaxBytes r.Body MaxMessageBytes = .error e := by
      unfold readAllMaxBytes
      rcases hbad with hlong | herr
      · exact ⟨_, if_pos hlong⟩
      · by_cases hlong : r.Body.data.length > MaxMessageBytes
        · exact ⟨_, if_pos hlong⟩
        · refine ⟨"read error", ?_⟩
          rw [if_neg hlong, if_pos herr]
    obtain ⟨e, he⟩ := hread
    have key : httpHandler IsMatch RuleContains canon RouterURLAnnotationKey routerURL rh msgID
        w r = replyText w StatusBadRequest "Request error,body is null" := by
      unfold httpHandler
      simp only [h2, if_false, hm, hn, ha, hA, hne, hh, he]
    rw [key]
    obtain ⟨h1, h3, -, h4, -, -⟩ :=
      replyText_fresh w StatusBadRequest "Request error,body is null" hs hb
        (by decide) (by decide) (by decide)
    exact ⟨h1, h3, h4⟩
  · intro hshort hok
    have hread : readAllMaxBytes r.Body MaxMessageBytes = .ok r.Body.data := by
      unfold readAllMaxBytes
      have hlong : ¬ r.Body.data.length > MaxMessageBytes := by omega
      rw [if_neg hlong, hok]
      rfl
    unfold httpHandler
    simp only [h2, if_false, hm, hn, ha, hA, hne, hh, hread]

/-- A `Write` of bytes that the status admits, or of no bytes at all, leaves the status and
the header as they are and appends the bytes. -/
theorem Write_allowed_or_empty (code : Int) (b : List UInt8) (hs : w.statusCode = some code)
    (hallowed : bodyAllowedForStatus code = true ∨ b = []) :
    (w.Write b).statusCode = some code ∧ (w.Write b).body = w.body ++ b ∧
      (w.Write b).header = w.header := by
  rcases hallowed with h | h
  · exact Write_allowed w code b hs h
  · subst h
    unfold ResponseWriter.Write
    rw [hs]
    simp

/-- A status from 200 on, other than 204 and 304, admits a body. -/
theorem bodyAllowedForStatus_of_final (code : Int) (hlo : 200 ≤ code)
    (h204 : code ≠ 204) (h304 : code ≠ 304) : bodyAllowedForStatus code = true := by
  unfold bodyAllowedForStatus
  have h1 : ¬ (100 ≤ code ∧ code ≤ 199) := by omega
  simp only [h1, h204, h304, if_false]

/-- C7 (as amended): for a locally handled request whose body was read as `b` and whose
handler returns, without error, a response with a status `s` between 200 and 999, headers
`H` and a body `B` that is read without failure, where `s` is neither 204 nor 304 or `B` is
empty: the call does not panic, the status written is `s`; for every entry of `H` its values
appear, contiguous and in order, among the values written under its (canonical) key; the body
written is `B` when `B` has at most `MaxMessageBytes` bytes and the first `MaxMessageBytes`
bytes of `B` otherwise. -/
theorem httpHandler_response (p : String) (node : Node) (annotations : List (String × String))
    (handle : Handle) (b : List UInt8) (response : Response)
    (hlen : 2 ≤ (stringsSplit r.RequestURI).length)
    (hm : matchedPath IsMatch RuleContains rh r.RequestURI = (p, true))
    (hn : rh.nodeLister ((stringsSplit r.RequestURI).getD 1 "") = some node)
    (ha : node.Annotations = some annotations)
    (hA : mapIndex annotations RouterURLAnnotationKey ≠ "")
    (hloc : mapIndex annotations RouterURLAnnotationKey = routerURL)
    (hs : w.statusCode = none) (hb : w.body = [])
    (hh : rh.handlers.lookup p = some handle)
    (hbody : readAllMaxBytes r.Body MaxMessageBytes = .ok b)
    (hret : handle { messageID := msgID, request := r, timeout := rh.restTimeout, data := b } =
      .ok (.httpResponse response))
    (hread : response.Body.readErr = false)
    (hlo : 200 ≤ response.StatusCode) (hhi : response.StatusCode ≤ 999)
    (hfits : (response.StatusCode ≠ 204 ∧ response.StatusCode ≠ 304) ∨
      response.Body.data = []) :
    (httpHandler IsMatch RuleContains canon RouterURLAnnotationKey routerURL rh msgID w r
        ).panicked = false ∧
      (httpHandler IsMatch RuleContains canon RouterURLAnnotationKey routerURL rh msgID w r
        ).w.statusCode = some response.StatusCode ∧
      (∀ kv ∈ response.Header, ∃ pre post,
        Header.values
          (httpHandler IsMatch RuleContains canon RouterURLAnnotationKey routerURL rh msgID w r
            ).w.header (canon kv.1) = pre ++ kv.2 ++ post) ∧
      (response.Body.data.length ≤ MaxMessageBytes →
        (httpHandler IsMatch RuleContains canon RouterURLAnnotationKey routerURL rh msgID w r
          ).w.body = response.Body.data) ∧
      (MaxMessageBytes < response.Body.data.length →
        (httpHandler IsMatch RuleContains canon RouterURLAnnotationKey routerURL rh msgID w r
          ).w.body = response.Body.data.take MaxMessageBytes) := by
  have h2 : ¬ (stringsSplit r.RequestURI).length < 2 := by omega
  have hne : ¬ mapIndex annotations RouterURLAnnotationKey ≠ routerURL := fun h' => h' hloc
  have hlim : readAllLimit response.Body MaxMessageBytes =
      .ok (response.Body.data.take MaxMessageBytes) := by
    unfold readAllLimit
    rw [if_neg]
    rw [hread]
    simp
  have hwh : ({ w with header := copyHeader canon w.header response.Header }
      : ResponseWriter).WriteHeader response.StatusCode =
      some { header := copyHeader canon w.header response.Header,
             statusCode := some response.StatusCode, body := w.body } :=
    WriteHeader_fresh { w with header := copyHeader canon w.header response.Header }
      response.StatusCode hs (by omega) hhi
  have hres : writeHandleResult canon w (.ok (.httpResponse response)) =
      (({ header := copyHeader canon w.header response.Header,
          statusCode := some response.StatusCode, body := w.body } : ResponseWriter).Write
          (response.Body.data.take MaxMessageBytes), false) := by
    simp only [writeHandleResult, hlim, hwh]
  have key : httpHandler IsMatch RuleContains canon RouterURLAnnotationKey routerURL rh msgID
      w r =
      { w := ({ header := copyHeader canon w.header response.Header,
                statusCode := some response.StatusCode, body := w.body }
                : ResponseWriter).Write (response.Body.data.take MaxMessageBytes),
        invoked := [(p, { messageID := msgID, request := r, timeout := rh.restTimeout,
                          data := b })],
        proxied := [], panicked := false } := by
    unfold httpHandler
    simp only [h2, if_false, hm, hn, ha, hA, hne, hh, hbody, hret, hres]
  have hallowed' : bodyAllowedForStatus response.StatusCode = true ∨
      response.Body.data.take MaxMessageBytes = [] := by
    rcases hfits with ⟨h204, h304⟩ | hempty
    · exact Or.inl (bodyAllowedForStatus_of_final _ hlo h204 h304)
    · right
      rw [hempty]
      rfl
  obtain ⟨w1, w2, w3⟩ := Write_allowed_or_empty
    { header := copyHeader canon w.header response.Header,
      statusCode := some response.StatusCode, body := w.body }
    response.StatusCode (response.Body.data.take MaxMessageBytes) rfl hallowed'
  rw [key]
  refine ⟨rfl, w1, ?_, ?_, ?_⟩
  · intro kv hkv
    simp only [w3]
    exact values_copyHeader_carries canon response.Header w.header kv hkv
  · intro hshort
    rw [w2]
    simp only [hb, List.nil_append, List.take_of_length_le hshort]
  · intro _
    rw [w2]
    simp only [hb, List.nil_append]

end HttpHandler

/-- Witness of C4: `node9` is unknown to the node lister; the request is answered 404
`No rule match`, and neither a handler nor the proxy is called. -/
theorem httpHandler_unknown_node_witness :
    sampleLister "node9" = none ∧
      (sampleServe (sampleRequest "/node9/twin/update" ⟨[], false⟩)).w.statusCode = some 404 ∧
      (sampleServe (sampleRequest "/node9/twin/update" ⟨[], false⟩)).w.body =
        bytesOf "No rule match" ∧
      (sampleServe (sampleRequest "/node9/twin/update" ⟨[], false⟩)).invoked = [] ∧
      (sampleServe (sampleRequest "/node9/twin/update" ⟨[], false⟩)).proxied = [] :=
  ⟨by decide,
    httpHandler_unknown_node wildcardIsMatch literalRuleContains (fun key => key)
      "routerURL" "http://10.0.0.5:9443" (sampleRestHandler ["/*/twin/update"]) "msg-1"
      freshWriter (sampleRequest "/node9/twin/update" ⟨[], false⟩) "/*/twin/update"
      (by decide) (by decide) rfl rfl (Or.inl (by decide))⟩

/-- Witness of C5: `node1` is served by this instance and its request reaches the handler
once; `node2` is served by `http://10.0.0.9:9443` and its request goes to the proxy. -/
theorem httpHandler_authority_witness :
    ((sampleServe (sampleRequest "/node1/twin/update" ⟨[111, 107], false⟩)).proxied = [] ∧
        (sampleServe (sampleRequest "/node1/twin/update" ⟨[111, 107], false⟩)).invoked =
          [("/*/twin/update",
            { messageID := "msg-1",
              request := sampleRequest "/node1/twin/update" ⟨[111, 107], false⟩,
              timeout := 60000000000, data := [111, 107] })]) ∧
      ((sampleServe (sampleRequest "/node2/twin/update" ⟨[111, 107], false⟩)).proxied =
          [("http://10.0.0.9:9443", sampleRequest "/node2/twin/update" ⟨[111, 107], false⟩)] ∧
        (sampleServe (sampleRequest "/node2/twin/update" ⟨[111, 107], false⟩)).invoked = []) :=
  ⟨⟨((httpHandler_authority wildcardIsMatch literalRuleContains (fun key => key)
        "routerURL" "http://10.0.0.5:9443" (sampleRestHandler ["/*/twin/update"]) "msg-1"
        freshWriter (sampleRequest "/node1/twin/update" ⟨[111, 107], false⟩) "/*/twin/update"
        { Annotations := some [("routerURL", "http://10.0.0.5:9443")] }
        [("routerURL", "http://10.0.0.5:9443")]
        (by decide) (by decide) (by decide) rfl (by decide)).1 (by decide)).1,
      (((httpHandler_authority wildcardIsMatch literalRuleContains (fun key => key)
        "routerURL" "http://10.0.0.5:9443" (sampleRestHandler ["/*/twin/update"]) "msg-1"
        freshWriter (sampleRequest "/node1/twin/update" ⟨[111, 107], false⟩) "/*/twin/update"
        { Annotations := some [("routerURL", "http://10.0.0.5:9443")] }
        [("routerURL", "http://10.0.0.5:9443")]
        (by decide) (by decide) (by decide) rfl (by decide)).1 (by decide)).2
          [111, 107] rfl).2⟩,
    (httpHandler_authority wildcardIsMatch literalRuleContains (fun key => key)
      "routerURL" "http://10.0.0.5:9443" (sampleRestHandler ["/*/twin/update"]) "msg-1"
      freshWriter (sampleRequest "/node2/twin/update" ⟨[111, 107], false⟩) "/*/twin/update"
      { Annotations := some [("routerURL", "http://10.0.0.9:9443")] }
      [("routerURL", "http://10.0.0.9:9443")]
      (by decide) (by decide) (by decide) rfl (by decide)).2 (by decide)⟩

/-- Witness of C8: a body whose read fails is answered 400 without a handler call; the body
`ok` is handed to the handler as it is. -/
theorem httpHandler_request_body_witness :
    ((sampleServe (sampleRequest "/node1/twin/update" ⟨[111], true⟩)).w.statusCode = some 400 ∧
        (sampleServe (sampleRequest "/node1/twin/update" ⟨[111], true⟩)).w.body =
          bytesOf "Request error,body is null" ∧
        (sampleServe (sampleRequest "/node1/twin/update" ⟨[111], true⟩)).invoked = []) ∧
      (sampleServe (sampleRequest "/node1/twin/update" ⟨[111, 107], false⟩)).invoked =
        [("/*/twin/update",
          { messageID := "msg-1",
            request := sampleRequest "/node1/twin/update" ⟨[111, 107], false⟩,
            timeout := 60000000000, data := [111, 107] })] :=
  ⟨(httpHandler_request_body wildcardIsMatch literalRuleContains (fun key => key)
      "routerURL" "http://10.0.0.5:9443" (sampleRestHandler ["/*/twin/update"]) "msg-1"
      freshWriter (sampleRequest "/node1/twin/update" ⟨[111], true⟩) "/*/twin/update"
      { Annotations := some [("routerURL", "http://10.0.0.5:9443")] }
      [("routerURL", "http://10.0.0.5:9443")]
      (by decide) (by decide) (by decide) rfl (by decide) (by decide) rfl rfl).1
      (Or.inr rfl),
    (httpHandler_request_body wildcardIsMatch literalRuleContains (fun key => key)
      "routerURL" "http://10.0.0.5:9443" (sampleRestHandler ["/*/twin/update"]) "msg-1"
      freshWriter (sampleRequest "/node1/twin/update" ⟨[111, 107], false⟩) "/*/twin/update"
      { Annotations := some [("routerURL", "http://10.0.0.5:9443")] }
      [("routerURL", "http://10.0.0.5:9443")]
      (by decide) (by decide) (by decide) rfl (by decide) (by decide) rfl rfl).2
      (by decide) rfl⟩

/-- Witness of C7: the echo handler answers 200 with one header and the body `ok`; that
status, header and body are what the caller receives. -/
theorem httpHandler_response_witness :
    (sampleServe (sampleRequest "/node1/twin/update" ⟨[111, 107], false⟩)).panicked = false ∧
      (sampleServe (sampleRequest "/node1/twin/update" ⟨[111, 107], false⟩)).w.statusCode =
        some 200 ∧
      (∀ kv ∈ [("Content-Type", ["text/plain"])], ∃ pre post,
        Header.values
          (sampleServe (sampleRequest "/node1/twin/update" ⟨[111, 107], false⟩)).w.header
          kv.1 = pre ++ kv.2 ++ post) ∧
      (sampleServe (sampleRequest "/node1/twin/update" ⟨[111, 107], false⟩)).w.body =
        [111, 107] := by
  have h := httpHandler_response wildcardIsMatch literalRuleContains (fun key => key)
    "routerURL" "http://10.0.0.5:9443" (sampleRestHandler ["/*/twin/update"]) "msg-1"
    freshWriter (sampleRequest "/node1/twin/update" ⟨[111, 107], false⟩) "/*/twin/update"
    { Annotations := some [("routerURL", "http://10.0.0.5:9443")] }
    [("routerURL", "http://10.0.0.5:9443")] echoHandle [111, 107]
    { StatusCode := 200, Header := [("Content-Type", ["text/plain"])],
      Body := { data := [111, 107], readErr := false } }
    (by decide) (by decide) (by decide) rfl (by decide) (by decide) rfl rfl
    rfl rfl rfl rfl (by decide) (by decide) (Or.inl (by decide))
  exact ⟨h.1, h.2.1, h.2.2.1, h.2.2.2.1 (by decide)⟩

/-- Counterexample to C7 as stated: a handler that returns, without error, status 204 with the
body `ok` is invoked, and the response written has status 204 and an empty body, not `ok`;
a handler that returns status 0 with the body `ok` makes the call panic before anything is
written. -/
theorem httpHandler_response_body_refused :
    (sampleServeWith noContentHandle
        (sampleRequest "/node1/twin/update" ⟨[], false⟩)).invoked =
        [("/*/twin/update",
          { messageID := "msg-1", request := sampleRequest "/node1/twin/update" ⟨[], false⟩,
            timeout := 60000000000, data := [] })] ∧
      noContentHandle
          { messageID := "msg-1", request := sampleRequest "/node1/twin/update" ⟨[], false⟩,
            timeout := 60000000000, data := [] } =
        .ok (.httpResponse
          { StatusCode := 204, Header := [], Body := { data := [111, 107], readErr := false } }) ∧
      (sampleServeWith noContentHandle
        (sampleRequest "/node1/twin/update" ⟨[], false⟩)).w.statusCode = some 204 ∧
      (sampleServeWith noContentHandle
        (sampleRequest "/node1/twin/update" ⟨[], false⟩)).w.body = [] ∧
      (sampleServeWith noContentHandle
        (sampleRequest "/node1/twin/update" ⟨[], false⟩)).w.body ≠ [111, 107] ∧
      (sampleServeWith zeroStatusHandle
        (sampleRequest "/node1/twin/update" ⟨[], false⟩)).panicked = true ∧
      (sampleServeWith zeroStatusHandle
        (sampleRequest "/node1/twin/update" ⟨[], false⟩)).w.statusCode = none ∧
      (sampleServeWith zeroStatusHandle
        (sampleRequest "/node1/twin/update" ⟨[], false⟩)).w.body = [] := by
  refine ⟨by decide, rfl, by decide, by decide, by decide, by decide, by decide, by decide⟩

/-! ## Reverse proxy and initialisation -/

/-- What `serveReverseProxy` does when the target parses: the forwarded request has the
URL host, URL scheme and `Host` of the target, its `X-Forwarded-Host` holds the value that
`Header.Get` finds under `Host` in the header map of the incoming request, and its URI and
body are untouched. -/
theorem serveReverseProxy_of_parsed (urlParse : String → Option URL) (canon : String → String)
    (target : String) (req : Request) (url : URL) (h : urlParse target = some url) :
    ∃ out, serveReverseProxy urlParse canon target req = some (url, out) ∧
      out.URL.Host = url.Host ∧ out.URL.Scheme = url.Scheme ∧ out.Host = url.Host ∧
      Header.values out.Header (canon "X-Forwarded-Host") = [Header.Get canon req.Header "Host"] ∧
      out.RequestURI = req.RequestURI ∧ out.Body = req.Body := by
  unfold serveReverseProxy
  rw [h]
  refine ⟨_, rfl, rfl, rfl, rfl, ?_, rfl, rfl⟩
  simp [Header.values, Header.Set]

/-- For a configured port in the range of a positive `int`, the port written into `routerURL`
is the port the instance listens on. -/
theorem InitHandler_positive_port (cfg : RouterConfig) (localIP : String)
    (lister : String → Option Node) (rh0 : RestHandler)
    (hpos : 0 < cfg.Port) (hmax : cfg.Port < 2 ^ 63) :
    (InitHandler cfg localIP lister rh0).1.port = cfg.Port ∧
      (InitHandler cfg localIP lister rh0).2 =
        "http://" ++ (if cfg.Address = "0.0.0.0" then localIP else cfg.Address) ++ ":" ++
          toString (InitHandler cfg localIP lister rh0).1.port := by
  have h64 : toInt64 cfg.Port = cfg.Port := by
    unfold toInt64
    omega
  have hport : (InitHandler cfg localIP lister rh0).1.port = cfg.Port := by
    simp only [InitHandler, h64]
    rw [if_neg (by omega)]
  exact ⟨hport, by rw [hport]; rfl⟩

/-- C6, evaluated on a request as the server delivers it (host in `Host`, no `Host` entry in
the header map): the forwarded request carries the URL host and scheme of the target, but
its `X-Forwarded-Host` is the empty string and not the original `edge.example.com`. -/
theorem serveReverseProxy_forwarded_host_empty :
    (sampleRequest "/node2/twin/update" ⟨[111, 107], false⟩).Host = "edge.example.com" ∧
      serveReverseProxy sampleURLParse (fun key => key) "http://10.0.0.9:9443"
          (sampleRequest "/node2/twin/update" ⟨[111, 107], false⟩) =
        some ({ Scheme := "http", Host := "10.0.0.9:9443" },
          { RequestURI := "/node2/twin/update", Host := "10.0.0.9:9443",
            URL := { Scheme := "http", Host := "10.0.0.9:9443" },
            Header := [("X-Forwarded-Host", [""])],
            Body := ⟨[111, 107], false⟩ }) ∧
      (serveReverseProxy sampleURLParse (fun key => key) "http://10.0.0.9:9443"
          (sampleRequest "/node2/twin/update" ⟨[111, 107], false⟩)).map
        (fun out => Header.Get (fun key => key) out.2.Header "X-Forwarded-Host") = some "" := by
  decide

/-- C10, evaluated on a configuration with port 0: the instance listens on port 9443, while
the port written into `routerURL` is 0. -/
theorem InitHandler_routerURL_port_zero :
    (InitHandler { Address := "10.0.0.5", Port := 0, RestTimeout := 0 } "10.0.0.5"
        sampleLister (sampleRestHandler [])).1.port = 9443 ∧
      Serve (InitHandler { Address := "10.0.0.5", Port := 0, RestTimeout := 0 } "10.0.0.5"
        sampleLister (sampleRestHandler [])).1 = "10.0.0.5:9443" ∧
      (InitHandler { Address := "10.0.0.5", Port := 0, RestTimeout := 0 } "10.0.0.5"
        sampleLister (sampleRestHandler [])).2 = "http://10.0.0.5:0" := by
  decide

end Listener

namespace Metrics

/-! ## Duration tables -/

/-- Deleting a key leaves the lookups of all other keys as they were. -/
theorem TimeTable.lookup_delete_ne (m : TimeTable) (key k : String) (hk : k ≠ key) :
    (TimeTable.delete m key).lookup k = m.lookup k :=
  Listener.lookup_filter_ne m k key hk

/-- After deleting a key, the key is absent. -/
theorem TimeTable.lookup_delete_self (m : TimeTable) (key : String) :
    (TimeTable.delete m key).lookup key = none :=
  Listener.lookup_filter_self m key

/-- C9: with the two correlation tables as explicit maps from message ID to start time: for a
message whose ID is not a key, `RecordCloudcoreMessageHandleDuration` (resp.
`RecordCloudcoreSendMessageDuration`) leaves the whole state as it was, so that it records
no observation and changes no table; for a message whose ID is a key, it records exactly one
observation, removes that key, and leaves every other entry, the other table and the other
histogram unchanged. -/
theorem record_duration_frame (now : Int) (msg : Message) (s : State) :
    (s.cloudcoreHandleReceiveMessageDuration.lookup msg.ID = none →
        RecordCloudcoreMessageHandleDuration now msg s = s) ∧
      (∀ start, s.cloudcoreHandleReceiveMessageDuration.lookup msg.ID = some start →
        (RecordCloudcoreMessageHandleDuration now msg s).CloudcoreMessageHandleDurationSeconds =
            s.CloudcoreMessageHandleDurationSeconds ++
              [{ labels := msg.Router, elapsed := now - start }] ∧
          (RecordCloudcoreMessageHandleDuration now msg s
            ).cloudcoreHandleReceiveMessageDuration.lookup msg.ID = none ∧
          (∀ k, k ≠ msg.ID →
            (RecordCloudcoreMessageHandleDuration now msg s
              ).cloudcoreHandleReceiveMessageDuration.lookup k =
              s.cloudcoreHandleReceiveMessageDuration.lookup k) ∧
          (RecordCloudcoreMessageHandleDuration now msg s).cloudcoreSendMessageDuration =
            s.cloudcoreSendMessageDuration ∧
          (RecordCloudcoreMessageHandleDuration now msg s).CloudcoreMessageSendDurationSeconds =
            s.CloudcoreMessageSendDurationSeconds) ∧
      (s.cloudcoreSendMessageDuration.lookup msg.ID = none →
        RecordCloudcoreSendMessageDuration now msg s = s) ∧
      (∀ start, s.cloudcoreSendMessageDuration.lookup msg.ID = some start →
        (RecordCloudcoreSendMessageDuration now msg s).CloudcoreMessageSendDurationSeconds =
            s.CloudcoreMessageSendDurationSeconds ++
              [{ labels := msg.Router, elapsed := now - start }] ∧
          (RecordCloudcoreSendMessageDuration now msg s
            ).cloudcoreSendMessageDuration.lookup msg.ID = none ∧
          (∀ k, k ≠ msg.ID →
            (RecordCloudcoreSendMessageDuration now msg s).cloudcoreSendMessageDuration.lookup k =
              s.cloudcoreSendMessageDuration.lookup k) ∧
          (RecordCloudcoreSendMessageDuration now msg s).cloudcoreHandleReceiveMessageDuration =
            s.cloudcoreHandleReceiveMessageDuration ∧
          (RecordCloudcoreSendMessageDuration now msg s).CloudcoreMessageHandleDurationSeconds =
            s.CloudcoreMessageHandleDurationSeconds) := by
  refine ⟨?_, ?_, ?_, ?_⟩
  · intro h
    simp only [RecordCloudcoreMessageHandleDuration, h]
  · intro start h
    have key : RecordCloudcoreMessageHandleDuration now msg s =
        { s with
          CloudcoreMessageHandleDurationSeconds :=
            s.CloudcoreMessageHandleDurationSeconds ++
              [{ labels := msg.Router, elapsed := now - start }]
          cloudcoreHandleReceiveMessageDuration :=
            s.cloudcoreHandleReceiveMessageDuration.delete msg.ID } := by
      simp only [RecordCloudcoreMessageHandleDuration, h]
    rw [key]
    exact ⟨rfl, TimeTable.lookup_delete_self _ _,
      fun k hk => TimeTable.lookup_delete_ne _ _ k hk, rfl, rfl⟩
  · intro h
    simp only [RecordCloudcoreSendMessageDuration, h]
  · intro start h
    have key : RecordCloudcoreSendMessageDuration now msg s =
        { s with
          CloudcoreMessageSendDurationSeconds :=
            s.CloudcoreMessageSendDurationSeconds ++
              [{ labels := msg.Router, elapsed := now - start }]
          cloudcoreSendMessageDuration := s.cloudcoreSendMessageDuration.delete msg.ID } := by
      simp only [RecordCloudcoreSendMessageDuration, h]
    rw [key]
    exact ⟨rfl, TimeTable.lookup_delete_self _ _,
      fun k hk => TimeTable.lookup_delete_ne _ _ k hk, rfl, rfl⟩

/-- Witness of C9: the unknown ID `m9` changes nothing; the pending ID `m1` (started at 100,
recorded at 175) yields one observation of 75 and leaves `m2` pending. -/
theorem record_duration_frame_witness :
    RecordCloudcoreMessageHandleDuration 175 (sampleMessage "m9") sampleState = sampleState ∧
      (RecordCloudcoreMessageHandleDuration 175 (sampleMessage "m1") sampleState
        ).CloudcoreMessageHandleDurationSeconds =
        [{ labels := (sampleMessage "m1").Router, elapsed := 75 }] ∧
      (RecordCloudcoreMessageHandleDuration 175 (sampleMessage "m1") sampleState
        ).cloudcoreHandleReceiveMessageDuration.lookup "m2" = some 250 ∧
      RecordCloudcoreSendMessageDuration 175 (sampleMessage "m9") sampleState = sampleState :=
  ⟨(record_duration_frame 175 (sampleMessage "m9") sampleState).1 (by decide),
    ((record_duration_frame 175 (sampleMessage "m1") sampleState).2.1 100 (by decide)).1,
    (((record_duration_frame 175 (sampleMessage "m1") sampleState).2.1 100
      (by decide)).2.2.1 "m2" (by decide)).trans (by decide),
    (record_duration_frame 175 (sampleMessage "m9") sampleState).2.2.1 (by decide)⟩

end Metrics

end KubeEdge
